import Mathlib

/-!
Verification of the InfraCore guardrail pipeline (safety layer, policy
engine, RBAC engine, CLI executor) against its natural-language
specification.  Definitions are a shallow embedding of the Go source:

  - pkg/core (RiskLevel, Skill, SafetyReport)      -> section Core
  - pkg/safety (Layer.Evaluate and helpers)        -> section Safety
  - pkg/policy (Engine.Evaluate and helpers)       -> section Policy
  - pkg/rbac (Engine.CanExecute and defaults)      -> section Rbac
  - pkg/executor (CLIExecutor.Execute and helpers) -> section Executor

Go strings are Lean Strings; Go maps map[string]T are association lists
(Go map reads are modelled by first-match lookup); Go interface{} values
occurring in parameter maps are the inductive PVal (int, bool, string),
so a Go type assertion val.(int) is a match on PVal.vInt.  Wall-clock
data (Violation.Timestamp, durations) is omitted: no claim mentions it.
-/

namespace InfraCore

/-! ## ASCII string helpers (model of the Go strings package operations) -/

/-- Lowercase an ASCII letter; other characters unchanged.  Models the
effect of Go strings.ToLower / strings.EqualFold on the ASCII strings
this code base compares. -/
def asciiLower (c : Char) : Char :=
  if 65 ≤ c.toNat && c.toNat ≤ 90 then Char.ofNat (c.toNat + 32) else c

/-- Lowercase a string character-wise (Go strings.ToLower on ASCII). -/
def lowerStr (s : String) : String :=
  String.mk (s.data.map asciiLower)

/-- Case-insensitive equality (Go strings.EqualFold on ASCII). -/
def eqFold (a b : String) : Bool :=
  lowerStr a == lowerStr b

/-- Whether pat occurs as a contiguous sublist of l (substring search). -/
def hasSub (pat : List Char) : List Char → Bool
  | [] => pat.isEmpty
  | c :: t => List.isPrefixOf pat (c :: t) || hasSub pat t

/-- Go strings.Contains s pat. -/
def strContains (s pat : String) : Bool :=
  hasSub pat.data s.data

/-- Go strings.HasPrefix s p. -/
def strStartsWith (s p : String) : Bool :=
  List.isPrefixOf p.data s.data

/-- Go strings.HasSuffix s p. -/
def strEndsWith (s p : String) : Bool :=
  List.isSuffixOf p.data s.data

/-- Drop the last n characters (Go strings.TrimSuffix once the suffix is
known to be present and has length n). -/
def strDropRight (s : String) (n : Nat) : String :=
  String.mk (s.data.take (s.data.length - n))

/-- First-match association-list lookup; models a Go map read. -/
def assocFind {κ α : Type} [BEq κ] (l : List (κ × α)) (key : κ) : Option α :=
  match l with
  | [] => none
  | (k, v) :: rest => if k == key then some v else assocFind rest key

/-! ## Core types (pkg/core) -/

/-- RiskLevel from pkg/core: LOW, MEDIUM, HIGH, CRITICAL (iota order). -/
inductive RiskLevel where
  | low
  | medium
  | high
  | critical
deriving DecidableEq

/-- Numeric value of a RiskLevel, matching the Go iota constants. -/
def RiskLevel.toNat : RiskLevel → Nat
  | .low => 0
  | .medium => 1
  | .high => 2
  | .critical => 3

instance : LE RiskLevel := ⟨fun a b => a.toNat ≤ b.toNat⟩
instance : LT RiskLevel := ⟨fun a b => a.toNat < b.toNat⟩

instance (a b : RiskLevel) : Decidable (a ≤ b) :=
  inferInstanceAs (Decidable (a.toNat ≤ b.toNat))

instance (a b : RiskLevel) : Decidable (a < b) :=
  inferInstanceAs (Decidable (a.toNat < b.toNat))

/-- RiskLevel.String from pkg/core. -/
def RiskLevel.render : RiskLevel → String
  | .low => "LOW"
  | .medium => "MEDIUM"
  | .high => "HIGH"
  | .critical => "CRITICAL"

/-- ParseRiskLevel from pkg/core: the Go (RiskLevel, error) pair is an
Except, whose error carries the Go error message. -/
def ParseRiskLevel (s : String) : Except String RiskLevel :=
  if s = "LOW" then .ok .low
  else if s = "MEDIUM" then .ok .medium
  else if s = "HIGH" then .ok .high
  else if s = "CRITICAL" then .ok .critical
  else .error ("unknown risk level: " ++ s)

/-- Parameter value (a Go interface\x7b\x7d stored in a params map). -/
inductive PVal where
  | vInt (n : Int)
  | vBool (b : Bool)
  | vStr (s : String)
deriving DecidableEq

/-- A Go map[string]interface\x7b\x7d of skill parameters. -/
def Params := List (String × PVal)

/-- Lookup of a parameter key (Go params[key] with the ok flag). -/
def lookupParam (params : Params) (key : String) : Option PVal :=
  assocFind params key

/-- Skill from pkg/core, restricted to the fields the pipeline reads. -/
structure Skill where
  name : String
  provider : String
  category : String
  riskLevel : RiskLevel
  requiresConfirmation : Bool
  command : String
  rollbackSupported : Bool
  rollbackProcedure : String

/-- SafetyReport from pkg/core, restricted to the fields the safety
layer writes. -/
structure SafetyReport where
  skillName : String
  riskLevel : RiskLevel
  blastRadius : Int
  affectedResources : List String
  requiresConfirmation : Bool
  confirmationPrompt : String
  rollbackAvailable : Bool
  rollbackProcedure : String
  dryRunRecommended : Bool
  environmentWarning : String

/-! ## Safety layer (pkg/safety) -/

/-- Read-only name patterns from the first case of estimateBlastRadius. -/
def readonlyName (name : String) : Bool :=
  strContains name ".list" || strContains name ".audit" ||
  strContains name ".query" || strContains name ".report" ||
  strContains name ".status" || strContains name ".snapshot"

/-- estimateFromParam from pkg/safety: the int value of params[key], or
fallback when the key is absent or its value is not a Go int. -/
def estimateFromParam (params : Params) (key : String) (fallback : Int) : Int :=
  match lookupParam params key with
  | some (.vInt n) => n
  | _ => fallback

/-- Layer.estimateBlastRadius from pkg/safety: the ordered switch on
the skill name. -/
def estimateBlastRadius (skill : Skill) (params : Params) : Int :=
  if readonlyName skill.name then 0
  else if strContains skill.name ".deploy" || strContains skill.name ".upgrade" then 1
  else if strContains skill.name ".scale" then estimateFromParam params "desired_capacity" 1
  else if strContains skill.name "terraform.apply" then estimateFromParam params "resources_count" 5
  else if strContains skill.name ".sync" || strContains skill.name ".migrate" then 10
  else 1

/-- Parameter keys scanned by identifyAffectedResources. -/
def resourceKeys : List String :=
  ["instance_id", "bucket_name", "vpc_id", "deployment", "function_name",
   "asg_name", "secret_id", "release_name", "app_name", "vm_name", "zone", "image"]

/-- Rendering of a parameter value (Go fmt %v on the stored value). -/
def PVal.render : PVal → String
  | .vInt n => toString n
  | .vBool b => if b then "true" else "false"
  | .vStr s => s

/-- Layer.identifyAffectedResources from pkg/safety. -/
def identifyAffectedResources (skill : Skill) (params : Params) : List String :=
  (skill.provider ++ "/" ++ skill.category ++ " resources") ::
    resourceKeys.filterMap fun key =>
      (lookupParam params key).map fun v => key ++ "=" ++ v.render

/-- Layer.isProductionEnvironment from pkg/safety. -/
def isProductionEnvironment (env : String) : Bool :=
  let e := lowerStr env
  e == "production" || e == "prod" || e == "prd"

/-- Destructive keywords from Layer.shouldDryRun. -/
def destructiveKeywords : List String :=
  ["apply", "deploy", "scale", "resize", "delete",
   "rotate", "sync", "migrate", "update", "upgrade", "rollback"]

/-- Layer.shouldDryRun from pkg/safety: the lowercased skill name
contains a destructive keyword. -/
def layerShouldDryRun (skill : Skill) : Bool :=
  destructiveKeywords.any fun keyword => strContains (lowerStr skill.name) keyword

/-- Layer.getConfirmationPrompt from pkg/safety. -/
def getConfirmationPrompt (riskLevel : RiskLevel) : String :=
  match riskLevel with
  | .low => ""
  | .medium => "Type \"yes\" to proceed or \"cancel\" to abort"
  | .high => "Type \"yes, apply\" to proceed or \"cancel\" to abort"
  | .critical => "Type \"CONFIRM PRODUCTION\" to proceed or \"cancel\" to abort"

/-- The production environment warning attached by Layer.Evaluate. -/
def prodWarning : String :=
  "TARGET ENVIRONMENT IS PRODUCTION - exercise extreme caution"

/-- Layer.Evaluate from pkg/safety: build the base report from the
skill, escalate for production environments, set the dry-run
recommendation, then derive the confirmation prompt from the (possibly
escalated) risk. -/
def evaluateSafety (skill : Skill) (params : Params) (env : String) : SafetyReport :=
  let base : SafetyReport :=
    { skillName := skill.name
      riskLevel := skill.riskLevel
      blastRadius := estimateBlastRadius skill params
      affectedResources := identifyAffectedResources skill params
      requiresConfirmation := skill.requiresConfirmation
      confirmationPrompt := ""
      rollbackAvailable := skill.rollbackSupported
      rollbackProcedure := skill.rollbackProcedure
      dryRunRecommended := false
      environmentWarning := "" }
  let escalated :=
    if isProductionEnvironment env then
      { base with
          environmentWarning := prodWarning
          riskLevel := if base.riskLevel < RiskLevel.high then RiskLevel.high else base.riskLevel
          requiresConfirmation := true }
    else base
  let withDry := { escalated with dryRunRecommended := layerShouldDryRun skill }
  { withDry with confirmationPrompt := getConfirmationPrompt withDry.riskLevel }

/-! ## Policy engine (pkg/policy) -/

/-- EnforcementLevel from pkg/policy: warn or deny. -/
inductive EnforcementLevel where
  | warn
  | deny
deriving DecidableEq

/-- Severity from pkg/policy: INFO, WARNING, CRITICAL. -/
inductive Severity where
  | info
  | warning
  | critical
deriving DecidableEq

/-- Policy from pkg/policy.  CheckFunc is a Lean function returning the
Go (violated, reason) pair. -/
structure Policy where
  name : String
  description : String
  enforcement : EnforcementLevel
  severity : Severity
  appliesTo : List String
  environments : List String
  check : Skill → Params → String → Bool × String

/-- Violation from pkg/policy (Timestamp omitted; wall-clock). -/
structure Violation where
  policyName : String
  description : String
  severity : Severity
  enforcement : EnforcementLevel
  reason : String
  skillName : String
  environment : String

/-- EvaluationResult from pkg/policy. -/
structure EvaluationResult where
  passed : Bool
  violations : List Violation
  warnings : List Violation
  denied : Bool

/-- Engine from pkg/policy. -/
structure PolicyEngine where
  policies : List Policy
  enforcementMode : EnforcementLevel

/-- matchSkillPattern from pkg/policy: wildcard matching with the forms
star, prefix-dot-star, prefix-star, and exact equality. -/
def matchSkillPattern (skillName pat : String) : Bool :=
  if pat == "*" then true
  else if strEndsWith pat ".*" then
    strStartsWith skillName (strDropRight pat 2 ++ ".")
  else if strEndsWith pat "*" then
    strStartsWith skillName (strDropRight pat 1)
  else skillName == pat

/-- Engine.policyApplies from pkg/policy: an empty AppliesTo or
Environments list places no constraint; environments compare with
Go strings.EqualFold. -/
def policyApplies (pol : Policy) (skill : Skill) (env : String) : Bool :=
  (pol.appliesTo.isEmpty || pol.appliesTo.any fun pat => matchSkillPattern skill.name pat) &&
  (pol.environments.isEmpty || pol.environments.any fun e => eqFold e env)

/-- One iteration of the loop body of Engine.Evaluate: fold the next
policy into the accumulated result. -/
def stepPolicy (mode : EnforcementLevel) (skill : Skill) (params : Params)
    (env : String) (acc : EvaluationResult) (pol : Policy) : EvaluationResult :=
  if !policyApplies pol skill env then acc
  else
    let vr := pol.check skill params env
    if !vr.1 then acc
    else
      let v : Violation :=
        { policyName := pol.name
          description := pol.description
          severity := pol.severity
          enforcement := pol.enforcement
          reason := vr.2
          skillName := skill.name
          environment := env }
      let eff :=
        if mode == EnforcementLevel.deny then EnforcementLevel.deny
        else if mode == EnforcementLevel.warn then EnforcementLevel.warn
        else pol.enforcement
      if eff == EnforcementLevel.deny then
        { acc with violations := acc.violations ++ [v], passed := false, denied := true }
      else
        { acc with warnings := acc.warnings ++ [v] }

/-- Engine.Evaluate from pkg/policy: fold all registered policies over
the initial passing result. -/
def evaluateEngine (eng : PolicyEngine) (skill : Skill) (params : Params)
    (env : String) : EvaluationResult :=
  eng.policies.foldl (stepPolicy eng.enforcementMode skill params env)
    { passed := true, violations := [], warnings := [], denied := false }

/-! ## RBAC engine (pkg/rbac) -/

/-- Role from pkg/rbac. -/
inductive Role where
  | viewer
  | operator
  | admin
  | superAdmin
deriving DecidableEq

/-- Display name of a role (the Go string constants). -/
def Role.render : Role → String
  | .viewer => "viewer"
  | .operator => "operator"
  | .admin => "admin"
  | .superAdmin => "superadmin"

/-- Permission from pkg/rbac (fields read by CanExecute/CanApprove;
AllowedCategories and AllowedSkillPatterns are declared in Go but never
read by CanExecute, and are kept for completeness). -/
structure Permission where
  allowedRiskLevels : List RiskLevel
  allowedCategories : List String
  allowedEnvironments : List String
  allowedSkillPatterns : List String
  denySkillPatterns : List String
  canApprove : Bool
  canManagePolicies : Bool
  canManageUsers : Bool

/-- Engine from pkg/rbac: its user map, role-permission map and the
enabled flag. -/
structure RbacEngine where
  users : List (String × Role)
  permissions : List (Role × Permission)
  enabled : Bool

/-- matchPattern from pkg/rbac: star, star-suffix, or exact (narrower
than the policy engine's matcher: no dot-star form). -/
def rbacMatchPattern (name pat : String) : Bool :=
  if pat == "*" then true
  else if strEndsWith pat "*" then strStartsWith name (strDropRight pat 1)
  else name == pat

/-- Engine.loadDefaultPermissions from pkg/rbac: the default role
table. -/
def defaultPermissions : List (Role × Permission) :=
  [ (Role.viewer,
     { allowedRiskLevels := [RiskLevel.low]
       allowedCategories := []
       allowedEnvironments := ["staging", "dev"]
       allowedSkillPatterns := []
       denySkillPatterns := []
       canApprove := false
       canManagePolicies := false
       canManageUsers := false }),
    (Role.operator,
     { allowedRiskLevels := [RiskLevel.low, RiskLevel.medium]
       allowedCategories := []
       allowedEnvironments := ["staging", "dev", "qa"]
       allowedSkillPatterns := []
       denySkillPatterns := []
       canApprove := false
       canManagePolicies := false
       canManageUsers := false }),
    (Role.admin,
     { allowedRiskLevels := [RiskLevel.low, RiskLevel.medium, RiskLevel.high]
       allowedCategories := []
       allowedEnvironments := ["staging", "dev", "qa", "production"]
       allowedSkillPatterns := []
       denySkillPatterns := []
       canApprove := true
       canManagePolicies := true
       canManageUsers := false }),
    (Role.superAdmin,
     { allowedRiskLevels := [RiskLevel.low, RiskLevel.medium, RiskLevel.high, RiskLevel.critical]
       allowedCategories := []
       allowedEnvironments := []
       allowedSkillPatterns := []
       denySkillPatterns := []
       canApprove := true
       canManagePolicies := true
       canManageUsers := true }) ]

/-- NewEngine from pkg/rbac: enabled, with the default role table and
the given users. -/
def newRbacEngine (users : List (String × Role)) : RbacEngine :=
  { users := users, permissions := defaultPermissions, enabled := true }

/-- containsRisk from pkg/rbac: exact membership. -/
def containsRisk (levels : List RiskLevel) (target : RiskLevel) : Bool :=
  levels.any fun l => l == target

/-- containsStr from pkg/rbac: case-insensitive membership. -/
def containsStrFold (items : List String) (target : String) : Bool :=
  items.any fun i => eqFold i target

/-- Engine.CanExecute from pkg/rbac, returning the Go (allowed, reason)
pair. -/
def canExecute (e : RbacEngine) (username : String) (skill : Skill)
    (env : String) : Bool × String :=
  if !e.enabled then (true, "")
  else
    match assocFind e.users username with
    | none => (false, "Access denied: user not found: " ++ username)
    | some role =>
      match assocFind e.permissions role with
      | none => (false, "No permissions defined for role: " ++ role.render)
      | some perm =>
        if !containsRisk perm.allowedRiskLevels skill.riskLevel then
          (false, "Role '" ++ role.render ++ "' cannot execute " ++
            skill.riskLevel.render ++ "-risk operations")
        else if !perm.allowedEnvironments.isEmpty &&
            !containsStrFold perm.allowedEnvironments env then
          (false, "Role '" ++ role.render ++ "' cannot access environment '" ++ env ++ "'")
        else if perm.denySkillPatterns.any fun pat => rbacMatchPattern skill.name pat then
          (false, "Skill '" ++ skill.name ++ "' is denied for role '" ++ role.render ++ "'")
        else (true, "")

/-! ## CLI executor (pkg/executor) -/

/-- CLIExecutor from pkg/executor: the global dry-run flag and whether
a safety layer was supplied (Go safetyLayer != nil; the Layer itself is
stateless).  The working directory is irrelevant to the gate. -/
structure CLIExecutor where
  safetyEnabled : Bool
  dryRun : Bool

/-- The outcome of CLIExecutor.Execute, keeping only what the gate
decides: a pending confirmation halt (StatusPending) with its message,
a dry-run result (StatusDryRun) with the interpolated command, or an
actual command execution with the interpolated command that runs. -/
inductive ExecOutcome where
  | pending (message : String)
  | dryRunOutcome (command : String)
  | run (command : String)
deriving DecidableEq

/-- Whether an outcome is the dry-run terminal state. -/
def ExecOutcome.isDryRun : ExecOutcome → Bool
  | .dryRunOutcome _ => true
  | _ => false

/-- Whether an outcome actually runs the command (a mutation can only
happen in this case). -/
def ExecOutcome.isRun : ExecOutcome → Bool
  | .run _ => true
  | _ => false

/-- CLIExecutor.hasConfirmation from pkg/executor: params has key
_confirmed holding a Go bool, and that bool is true. -/
def hasConfirmation (params : Params) : Bool :=
  match lookupParam params "_confirmed" with
  | some (.vBool b) => b
  | _ => false

/-- CLIExecutor.hasForce from pkg/executor: params has key _force
holding a Go bool, and that bool is true. -/
def hasForce (params : Params) : Bool :=
  match lookupParam params "_force" with
  | some (.vBool b) => b
  | _ => false

/-- CLIExecutor.shouldDryRun from pkg/executor.  The Go body is
skill.RiskLevel >= core.RiskHigh && !e.hasForce(nil): the force check
is invoked with a nil map (the empty Params), not the request's
parameters. -/
def cliShouldDryRun (skill : Skill) : Bool :=
  decide (RiskLevel.high ≤ skill.riskLevel) && !hasForce []

/-- CLIExecutor.interpolateCommand from pkg/executor: replace each
brace-delimited parameter name with the rendered value. -/
def interpolateCommand (template : String) (params : Params) : String :=
  params.foldl
    (fun cmd kv => cmd.replace ("\x7b" ++ kv.1 ++ "\x7d") kv.2.render)
    template

/-- CLIExecutor.Execute from pkg/executor: the confirmation gate (only
when a safety layer is present), then the dry-run gate, then the real
command execution. -/
def cliExecute (e : CLIExecutor) (skill : Skill) (params : Params)
    (env : String) : ExecOutcome :=
  if e.safetyEnabled &&
      ((evaluateSafety skill params env).requiresConfirmation && !hasConfirmation params) then
    .pending ("Action requires confirmation: " ++
      (evaluateSafety skill params env).confirmationPrompt)
  else if e.dryRun || cliShouldDryRun skill then
    .dryRunOutcome (interpolateCommand skill.command params)
  else
    .run (interpolateCommand skill.command params)

/-! ## Concrete sample data used by witnesses -/

/-- Build a skill with the given name, risk and confirmation flag; the
remaining fields are fixed sample values (they do not influence the
gates under test). -/
def mkSkill (name : String) (risk : RiskLevel) (requiresConf : Bool) : Skill :=
  { name := name
    provider := "aws"
    category := "compute"
    riskLevel := risk
    requiresConfirmation := requiresConf
    command := "echo run"
    rollbackSupported := false
    rollbackProcedure := "" }

/-! ## Helper lemmas -/

/-- Ordering on RiskLevel unfolds to the ordering of the iota values. -/
theorem RiskLevel.le_def (a b : RiskLevel) : (a ≤ b) = (a.toNat ≤ b.toNat) := rfl

/-- Strict ordering on RiskLevel unfolds to the iota values. -/
theorem RiskLevel.lt_def (a b : RiskLevel) : (a < b) = (a.toNat < b.toNat) := rfl

/-! ## Claims about the safety layer -/

/-- C9: each of the four RiskLevel values round-trips through its string
representation, and every string other than the four canonical
representations makes ParseRiskLevel return an error. -/
theorem c9_risk_level_round_trip :
    (∀ r : RiskLevel, ParseRiskLevel r.render = Except.ok r) ∧
    (∀ s : String, s ≠ "LOW" → s ≠ "MEDIUM" → s ≠ "HIGH" → s ≠ "CRITICAL" →
      ParseRiskLevel s = Except.error ("unknown risk level: " ++ s)) := by
  constructor
  · intro r
    cases r <;> rfl
  · intro s h1 h2 h3 h4
    simp [ParseRiskLevel, h1, h2, h3, h4]

/-- Witness for C9 at MEDIUM and at the non-canonical string low. -/
theorem c9_witness :
    ParseRiskLevel (RiskLevel.medium.render) = Except.ok RiskLevel.medium ∧
    ParseRiskLevel "low" = Except.error ("unknown risk level: " ++ "low") :=
  ⟨c9_risk_level_round_trip.1 RiskLevel.medium,
   c9_risk_level_round_trip.2 "low" (by decide) (by decide) (by decide) (by decide)⟩

/-- C2: for every skill and params, when the environment is a
production name (production, prod or prd in any letter case, which is
exactly what isProductionEnvironment decides after lowercasing), the
safety report has risk at least High, requires confirmation, and
carries a non-empty environment warning. -/
theorem c2_production_escalation :
    ∀ (skill : Skill) (params : Params) (env : String),
      isProductionEnvironment env = true →
      RiskLevel.high ≤ (evaluateSafety skill params env).riskLevel ∧
      (evaluateSafety skill params env).requiresConfirmation = true ∧
      (evaluateSafety skill params env).environmentWarning ≠ "" := by
  intro skill params env h
  refine ⟨?_, ?_, ?_⟩
  · simp only [evaluateSafety, h, if_true]
    cases hr : skill.riskLevel <;> simp [hr, RiskLevel.le_def, RiskLevel.lt_def, RiskLevel.toNat]
  · simp [evaluateSafety, h]
  · simp [evaluateSafety, h, prodWarning]

/-- Witness for C2 at an upper-case production environment name. -/
theorem c2_witness :
    RiskLevel.high ≤ (evaluateSafety (mkSkill "aws.ec2.list" RiskLevel.low false) [] "PROD").riskLevel ∧
    (evaluateSafety (mkSkill "aws.ec2.list" RiskLevel.low false) [] "PROD").requiresConfirmation = true ∧
    (evaluateSafety (mkSkill "aws.ec2.list" RiskLevel.low false) [] "PROD").environmentWarning ≠ "" :=
  c2_production_escalation (mkSkill "aws.ec2.list" RiskLevel.low false) [] "PROD" (by decide)

/-- C6: the risk level in the safety report is never below the skill's
intrinsic risk level; environment escalation only raises it. -/
theorem c6_risk_escalation_monotonic :
    ∀ (skill : Skill) (params : Params) (env : String),
      skill.riskLevel ≤ (evaluateSafety skill params env).riskLevel := by
  intro skill params env
  cases hp : isProductionEnvironment env
  · simp [evaluateSafety, hp, RiskLevel.le_def]
  · simp only [evaluateSafety, hp, if_true]
    cases hr : skill.riskLevel <;>
      simp [hr, RiskLevel.le_def, RiskLevel.lt_def, RiskLevel.toNat]

/-! ## Claims about the policy engine -/

/-- With global mode warn, one evaluation step never touches the
denied flag, the violations list, or the passed flag. -/
theorem stepPolicy_warn_preserves (skill : Skill) (params : Params) (env : String)
    (acc : EvaluationResult) (pol : Policy) :
    (stepPolicy EnforcementLevel.warn skill params env acc pol).denied = acc.denied ∧
    (stepPolicy EnforcementLevel.warn skill params env acc pol).violations = acc.violations ∧
    (stepPolicy EnforcementLevel.warn skill params env acc pol).passed = acc.passed := by
  cases hap : policyApplies pol skill env
  · simp [stepPolicy, hap]
  · cases hv : (pol.check skill params env).1
    · simp [stepPolicy, hap, hv]
    · refine ⟨?_, ?_, ?_⟩ <;>
        simp [stepPolicy, hap, hv,
          (by decide : (EnforcementLevel.warn == EnforcementLevel.deny) = false),
          (by decide : (EnforcementLevel.warn == EnforcementLevel.warn) = true)]

/-- With global mode deny, one evaluation step never touches the
warnings list. -/
theorem stepPolicy_deny_preserves (skill : Skill) (params : Params) (env : String)
    (acc : EvaluationResult) (pol : Policy) :
    (stepPolicy EnforcementLevel.deny skill params env acc pol).warnings = acc.warnings := by
  cases hap : policyApplies pol skill env
  · simp [stepPolicy, hap]
  · cases hv : (pol.check skill params env).1
    · simp [stepPolicy, hap, hv]
    · simp [stepPolicy, hap, hv,
        (by decide : (EnforcementLevel.deny == EnforcementLevel.deny) = true)]

/-- Folding any list of policies with global mode warn preserves the
denied flag, the violations list, and the passed flag. -/
theorem foldl_warn_preserves (skill : Skill) (params : Params) (env : String) :
    ∀ (l : List Policy) (acc : EvaluationResult),
      ((l.foldl (stepPolicy EnforcementLevel.warn skill params env) acc).denied = acc.denied) ∧
      ((l.foldl (stepPolicy EnforcementLevel.warn skill params env) acc).violations = acc.violations) ∧
      ((l.foldl (stepPolicy EnforcementLevel.warn skill params env) acc).passed = acc.passed) := by
  intro l
  induction l with
  | nil => intro acc; exact ⟨rfl, rfl, rfl⟩
  | cons p t ih =>
    intro acc
    have hs := stepPolicy_warn_preserves skill params env acc p
    have ht := ih (stepPolicy EnforcementLevel.warn skill params env acc p)
    simp only [List.foldl_cons]
    exact ⟨ht.1.trans hs.1, ht.2.1.trans hs.2.1, ht.2.2.trans hs.2.2⟩

/-- Folding any list of policies with global mode deny preserves the
warnings list. -/
theorem foldl_deny_preserves (skill : Skill) (params : Params) (env : String) :
    ∀ (l : List Policy) (acc : EvaluationResult),
      (l.foldl (stepPolicy EnforcementLevel.deny skill params env) acc).warnings = acc.warnings := by
  intro l
  induction l with
  | nil => intro acc; rfl
  | cons p t ih =>
    intro acc
    simp only [List.foldl_cons]
    exact (ih (stepPolicy EnforcementLevel.deny skill params env acc p)).trans
      (stepPolicy_deny_preserves skill params env acc p)

/-- C1: the effective enforcement of every triggered policy is the
engine's global mode.  A globally-Warn engine never denies and never
fills the Violations list (all triggered policies land in Warnings); a
globally-Deny engine never fills the Warnings list (every violation is
a denial). -/
theorem c1_global_mode_overrides :
    ∀ (eng : PolicyEngine) (skill : Skill) (params : Params) (env : String),
      (eng.enforcementMode = EnforcementLevel.warn →
        (evaluateEngine eng skill params env).denied = false ∧
        (evaluateEngine eng skill params env).violations = []) ∧
      (eng.enforcementMode = EnforcementLevel.deny →
        (evaluateEngine eng skill params env).warnings = []) := by
  intro eng skill params env
  constructor
  · intro hm
    unfold evaluateEngine
    rw [hm]
    have h := foldl_warn_preserves skill params env eng.policies
      { passed := true, violations := [], warnings := [], denied := false }
    exact ⟨h.1, h.2.1⟩
  · intro hm
    unfold evaluateEngine
    rw [hm]
    exact foldl_deny_preserves skill params env eng.policies
      { passed := true, violations := [], warnings := [], denied := false }

/-- A policy whose check always reports a violation, declared with
enforcement deny, applying to every skill and environment. -/
def alwaysViolatePolicy : Policy :=
  { name := "always-violate"
    description := "always reports a violation"
    enforcement := EnforcementLevel.deny
    severity := Severity.critical
    appliesTo := []
    environments := []
    check := fun _ _ _ => (true, "triggered") }

/-- Witness for C1: a warn-mode engine holding a deny-severity,
always-violating policy still does not deny, and a deny-mode engine
leaves warnings empty. -/
theorem c1_witness :
    ((evaluateEngine ⟨[alwaysViolatePolicy], EnforcementLevel.warn⟩
        (mkSkill "aws.s3.sync" RiskLevel.high false) [] "dev").denied = false ∧
      (evaluateEngine ⟨[alwaysViolatePolicy], EnforcementLevel.warn⟩
        (mkSkill "aws.s3.sync" RiskLevel.high false) [] "dev").violations = []) ∧
    (evaluateEngine ⟨[alwaysViolatePolicy], EnforcementLevel.deny⟩
        (mkSkill "aws.s3.sync" RiskLevel.high false) [] "dev").warnings = [] :=
  ⟨(c1_global_mode_overrides ⟨[alwaysViolatePolicy], EnforcementLevel.warn⟩
      (mkSkill "aws.s3.sync" RiskLevel.high false) [] "dev").1 rfl,
   (c1_global_mode_overrides ⟨[alwaysViolatePolicy], EnforcementLevel.deny⟩
      (mkSkill "aws.s3.sync" RiskLevel.high false) [] "dev").2 rfl⟩

/-- Structural invariant preserved by every evaluation step, for any
global mode: passed is the negation of denied, and denied holds
exactly when the violations list is non-empty. -/
def resultInv (r : EvaluationResult) : Prop :=
  r.passed = !r.denied ∧ r.denied = !r.violations.isEmpty

/-- Any single evaluation step preserves the structural invariant. -/
theorem stepPolicy_preserves_inv (mode : EnforcementLevel) (skill : Skill)
    (params : Params) (env : String) (acc : EvaluationResult) (pol : Policy)
    (h : resultInv acc) :
    resultInv (stepPolicy mode skill params env acc pol) := by
  obtain ⟨h1, h2⟩ := h
  cases hap : policyApplies pol skill env
  · constructor <;> simp [stepPolicy, hap, h1, h2]
  · cases hv : (pol.check skill params env).1
    · constructor <;> simp [stepPolicy, hap, hv, h1, h2]
    · cases mode
      · constructor <;>
          simp [stepPolicy, hap, hv, h1, h2,
            (by decide : (EnforcementLevel.warn == EnforcementLevel.deny) = false),
            (by decide : (EnforcementLevel.warn == EnforcementLevel.warn) = true)]
      · constructor <;>
          simp [stepPolicy, hap, hv,
            (by decide : (EnforcementLevel.deny == EnforcementLevel.deny) = true)]

/-- Folding any list of policies preserves the structural invariant. -/
theorem foldl_preserves_inv (mode : EnforcementLevel) (skill : Skill)
    (params : Params) (env : String) :
    ∀ (l : List Policy) (acc : EvaluationResult), resultInv acc →
      resultInv (l.foldl (stepPolicy mode skill params env) acc) := by
  intro l
  induction l with
  | nil => intro acc h; exact h
  | cons p t ih =>
    intro acc h
    simp only [List.foldl_cons]
    exact ih _ (stepPolicy_preserves_inv mode skill params env acc p h)

/-- C10: every EvaluationResult produced by the policy engine has
Passed true exactly when Denied is false, and Denied true exactly when
the Violations list is non-empty; warnings never flip Passed. -/
theorem c10_result_invariant :
    ∀ (eng : PolicyEngine) (skill : Skill) (params : Params) (env : String),
      ((evaluateEngine eng skill params env).passed = true ↔
        (evaluateEngine eng skill params env).denied = false) ∧
      ((evaluateEngine eng skill params env).denied = true ↔
        (evaluateEngine eng skill params env).violations ≠ []) := by
  intro eng skill params env
  have h : resultInv (evaluateEngine eng skill params env) := by
    unfold evaluateEngine
    exact foldl_preserves_inv eng.enforcementMode skill params env eng.policies
      { passed := true, violations := [], warnings := [], denied := false }
      ⟨rfl, rfl⟩
  obtain ⟨h1, h2⟩ := h
  constructor
  · rw [h1]
    cases (evaluateEngine eng skill params env).denied <;> simp
  · rw [h2]
    cases hv : (evaluateEngine eng skill params env).violations <;> simp

/-! ## Claims about the RBAC engine -/

/-- C5: under the default role table, a Viewer is denied for any skill
of Medium or higher risk and for any skill in the production
environment; a SuperAdmin is allowed for a Critical-risk skill in
production; an unknown username is denied with a non-empty reason; and
a disabled engine allows every combination. -/
theorem c5_default_role_table :
    ∀ (users : List (String × Role)) (uname : String) (skill : Skill) (env : String),
      (assocFind users uname = some Role.viewer →
        RiskLevel.medium ≤ skill.riskLevel →
        (canExecute (newRbacEngine users) uname skill env).1 = false) ∧
      (assocFind users uname = some Role.viewer →
        (canExecute (newRbacEngine users) uname skill "production").1 = false) ∧
      (assocFind users uname = some Role.superAdmin →
        skill.riskLevel = RiskLevel.critical →
        (canExecute (newRbacEngine users) uname skill "production").1 = true) ∧
      (assocFind users uname = none →
        (canExecute (newRbacEngine users) uname skill env).1 = false ∧
        (canExecute (newRbacEngine users) uname skill env).2 ≠ "") ∧
      (∀ e : RbacEngine, e.enabled = false →
        canExecute e uname skill env = (true, "")) := by
  intro users uname skill env
  refine ⟨?_, ?_, ?_, ?_, ?_⟩
  · intro hu hr
    cases hrisk : skill.riskLevel
    · rw [hrisk] at hr; exact absurd hr (by decide)
    all_goals
      simp [canExecute, newRbacEngine, hu, hrisk, defaultPermissions, assocFind, containsRisk]
  · intro hu
    cases hrisk : skill.riskLevel <;>
      simp [canExecute, newRbacEngine, hu, hrisk, defaultPermissions, assocFind, containsRisk,
        (by decide : containsStrFold ["staging", "dev"] "production" = false)]
  · intro hu hc
    simp [canExecute, newRbacEngine, hu, hc, defaultPermissions, assocFind,
      (by decide :
        containsRisk [RiskLevel.low, RiskLevel.medium, RiskLevel.high, RiskLevel.critical]
          RiskLevel.critical = true)]
  · intro hu
    refine ⟨by simp [canExecute, newRbacEngine, hu], ?_⟩
    simp only [canExecute, newRbacEngine, hu]
    intro h
    have hd : ("Access denied: user not found: ".data ++ uname.data : List Char) = [] :=
      congrArg String.data h
    rw [List.append_eq_nil] at hd
    exact absurd hd.1 (by decide)
  · intro e he
    simp [canExecute, he]

/-- Witness for C5 at a concrete user table with a viewer and a
superadmin, and a concrete unknown username. -/
theorem c5_witness :
    (canExecute (newRbacEngine [("vera", Role.viewer), ("sam", Role.superAdmin)])
        "vera" (mkSkill "aws.ec2.scale" RiskLevel.medium false) "staging").1 = false ∧
    (canExecute (newRbacEngine [("vera", Role.viewer), ("sam", Role.superAdmin)])
        "vera" (mkSkill "aws.ec2.list" RiskLevel.low false) "production").1 = false ∧
    (canExecute (newRbacEngine [("vera", Role.viewer), ("sam", Role.superAdmin)])
        "sam" (mkSkill "terraform.apply" RiskLevel.critical true) "production").1 = true ∧
    (canExecute (newRbacEngine [("vera", Role.viewer), ("sam", Role.superAdmin)])
        "nobody" (mkSkill "aws.ec2.list" RiskLevel.low false) "staging").1 = false ∧
    canExecute ⟨[], [], false⟩ "anyone" (mkSkill "aws.ec2.list" RiskLevel.low false) "prod"
      = (true, "") := by
  refine ⟨?_, ?_, ?_, ?_, ?_⟩
  · exact (c5_default_role_table [("vera", Role.viewer), ("sam", Role.superAdmin)] "vera"
      (mkSkill "aws.ec2.scale" RiskLevel.medium false) "staging").1 (by decide) (by decide)
  · exact (c5_default_role_table [("vera", Role.viewer), ("sam", Role.superAdmin)] "vera"
      (mkSkill "aws.ec2.list" RiskLevel.low false) "production").2.1 (by decide)
  · exact (c5_default_role_table [("vera", Role.viewer), ("sam", Role.superAdmin)] "sam"
      (mkSkill "terraform.apply" RiskLevel.critical true) "production").2.2.1 (by decide) rfl
  · exact ((c5_default_role_table [("vera", Role.viewer), ("sam", Role.superAdmin)] "nobody"
      (mkSkill "aws.ec2.list" RiskLevel.low false) "staging").2.2.2.1 (by decide)).1
  · exact (c5_default_role_table [] "anyone"
      (mkSkill "aws.ec2.list" RiskLevel.low false) "prod").2.2.2.2 ⟨[], [], false⟩ rfl

/-! ## Claims about the CLI executor -/

/-- C3: with a safety layer present, whenever the computed safety
report requires confirmation and the params carry no _confirmed=true
token, Execute halts in the pending (awaiting-confirmation) state
surfacing the report's confirmation prompt, and the command is never
run. -/
theorem c3_confirmation_gate :
    ∀ (e : CLIExecutor) (skill : Skill) (params : Params) (env : String),
      e.safetyEnabled = true →
      (evaluateSafety skill params env).requiresConfirmation = true →
      hasConfirmation params = false →
      cliExecute e skill params env =
        ExecOutcome.pending ("Action requires confirmation: " ++
          (evaluateSafety skill params env).confirmationPrompt) ∧
      (cliExecute e skill params env).isRun = false := by
  intro e skill params env h1 h2 h3
  have hmain : cliExecute e skill params env =
      ExecOutcome.pending ("Action requires confirmation: " ++
        (evaluateSafety skill params env).confirmationPrompt) := by
    simp [cliExecute, h1, h2, h3]
  exact ⟨hmain, by rw [hmain]; rfl⟩

/-- Witness for C3: a medium-risk skill flagged as requiring
confirmation, executed in staging without a _confirmed token, halts as
pending. -/
theorem c3_witness :
    cliExecute ⟨true, false⟩ (mkSkill "k8s.deploy" RiskLevel.medium true) [] "staging" =
      ExecOutcome.pending ("Action requires confirmation: " ++
        (evaluateSafety (mkSkill "k8s.deploy" RiskLevel.medium true) [] "staging").confirmationPrompt) ∧
    (cliExecute ⟨true, false⟩ (mkSkill "k8s.deploy" RiskLevel.medium true) [] "staging").isRun
      = false :=
  c3_confirmation_gate ⟨true, false⟩ (mkSkill "k8s.deploy" RiskLevel.medium true) [] "staging"
    rfl (by decide) rfl

/-- The dry-run condition exactly as claim C4 states it: the executor's
global dry-run mode is set, or the safety evaluation's
DryRunRecommended is true and no explicit _force=true override is
present in the params.  Stated from the claim's words for comparison
with the code's cliShouldDryRun. -/
def claimedDryRunCondition (e : CLIExecutor) (skill : Skill) (params : Params)
    (env : String) : Bool :=
  e.dryRun || ((evaluateSafety skill params env).dryRunRecommended && !hasForce params)

/-- Counterexample to C4: a skill named custom.action of High risk in
staging passes the confirmation check, and the claimed condition is
false (its name contains no destructive keyword, so DryRunRecommended
is false, and global dry-run mode is off), yet the executor returns a
DryRun result, because the code gates on RiskLevel being at least High
and ignores both DryRunRecommended and the _force parameter. -/
theorem c4_counterexample :
    claimedDryRunCondition ⟨true, false⟩ (mkSkill "custom.action" RiskLevel.high false) []
        "staging" = false ∧
    (cliExecute ⟨true, false⟩ (mkSkill "custom.action" RiskLevel.high false) []
        "staging").isDryRun = true := by
  constructor
  · decide
  · decide

/-- C4 as amended: for requests that pass the confirmation check, the
executor returns a DryRun result exactly when its global dry-run mode
is set or the skill's intrinsic RiskLevel is at least High.  The safety
report's DryRunRecommended flag and the _force parameter play no role:
the code's shouldDryRun tests the risk level and calls its force check
on a nil parameter map. -/
theorem c4_dry_run_gate :
    ∀ (e : CLIExecutor) (skill : Skill) (params : Params) (env : String),
      (e.safetyEnabled &&
        ((evaluateSafety skill params env).requiresConfirmation && !hasConfirmation params))
        = false →
      ((cliExecute e skill params env).isDryRun = true ↔
        (e.dryRun || decide (RiskLevel.high ≤ skill.riskLevel)) = true) := by
  intro e skill params env h
  simp only [cliExecute, h, Bool.false_eq_true, if_false]
  have hforce : hasForce [] = false := rfl
  cases hd : (e.dryRun || decide (RiskLevel.high ≤ skill.riskLevel))
  · have : (e.dryRun || cliShouldDryRun skill) = false := by
      simp [cliShouldDryRun, hforce]
      simp at hd
      exact hd
    simp [this, ExecOutcome.isRun, ExecOutcome.isDryRun]
  · have : (e.dryRun || cliShouldDryRun skill) = true := by
      simp [cliShouldDryRun, hforce]
      simp at hd
      exact hd
    simp [this, ExecOutcome.isDryRun]

/-- Witness for the amended C4 at both a dry-running and an executing
input. -/
theorem c4_witness :
    ((cliExecute ⟨true, false⟩ (mkSkill "custom.action" RiskLevel.high false) []
        "staging").isDryRun = true ↔
      ((false : Bool) || decide (RiskLevel.high ≤ RiskLevel.high)) = true) ∧
    ((cliExecute ⟨true, false⟩ (mkSkill "custom.action" RiskLevel.low false) []
        "staging").isDryRun = true ↔
      ((false : Bool) || decide (RiskLevel.high ≤ RiskLevel.low)) = true) :=
  ⟨c4_dry_run_gate ⟨true, false⟩ (mkSkill "custom.action" RiskLevel.high false) [] "staging"
      (by decide),
   c4_dry_run_gate ⟨true, false⟩ (mkSkill "custom.action" RiskLevel.low false) [] "staging"
      (by decide)⟩

/-! ## Claims about blast-radius estimation -/

/-- C7: blast-radius estimation follows the ordered table of
estimateBlastRadius.  A name containing a read-only pattern (such as
aws.ec2.list) yields 0; aws.ec2.scale reads the integer
desired_capacity parameter with fallback 1; terraform.apply reads
resources_count with fallback 5; a name containing .sync or .migrate
that matches no earlier row yields 10; a name matching no row yields
1. -/
theorem c7_blast_radius_table :
    ∀ (skill : Skill) (params : Params),
      (skill.name = "aws.ec2.list" → estimateBlastRadius skill params = 0) ∧
      (readonlyName skill.name = true → estimateBlastRadius skill params = 0) ∧
      (skill.name = "aws.ec2.scale" →
        (lookupParam params "desired_capacity" = some (PVal.vInt 7) →
          estimateBlastRadius skill params = 7) ∧
        (lookupParam params "desired_capacity" = none →
          estimateBlastRadius skill params = 1)) ∧
      (skill.name = "terraform.apply" → lookupParam params "resources_count" = none →
        estimateBlastRadius skill params = 5) ∧
      ((strContains skill.name ".sync" || strContains skill.name ".migrate") = true →
        readonlyName skill.name = false →
        strContains skill.name ".deploy" = false →
        strContains skill.name ".upgrade" = false →
        strContains skill.name ".scale" = false →
        strContains skill.name "terraform.apply" = false →
        estimateBlastRadius skill params = 10) ∧
      (readonlyName skill.name = false →
        strContains skill.name ".deploy" = false →
        strContains skill.name ".upgrade" = false →
        strContains skill.name ".scale" = false →
        strContains skill.name "terraform.apply" = false →
        (strContains skill.name ".sync" || strContains skill.name ".migrate") = false →
        estimateBlastRadius skill params = 1) := by
  intro skill params
  refine ⟨?_, ?_, ?_, ?_, ?_, ?_⟩
  · intro hn
    simp [estimateBlastRadius, hn, (by decide : readonlyName "aws.ec2.list" = true)]
  · intro hro
    simp [estimateBlastRadius, hro]
  · intro hn
    constructor <;> intro hp <;>
      simp [estimateBlastRadius, hn, estimateFromParam, hp,
        (by decide : readonlyName "aws.ec2.scale" = false),
        (by decide : strContains "aws.ec2.scale" ".deploy" = false),
        (by decide : strContains "aws.ec2.scale" ".upgrade" = false),
        (by decide : strContains "aws.ec2.scale" ".scale" = true)]
  · intro hn hp
    simp [estimateBlastRadius, hn, estimateFromParam, hp,
      (by decide : readonlyName "terraform.apply" = false),
      (by decide : strContains "terraform.apply" ".deploy" = false),
      (by decide : strContains "terraform.apply" ".upgrade" = false),
      (by decide : strContains "terraform.apply" ".scale" = false),
      (by decide : strContains "terraform.apply" "terraform.apply" = true)]
  · intro hs hro h1 h2 h3 h4
    simp [estimateBlastRadius, hs, hro, h1, h2, h3, h4]
  · intro hro h1 h2 h3 h4 hs
    simp [estimateBlastRadius, hro, h1, h2, h3, h4, hs]

/-- Witness for C7 at the concrete names of the claim. -/
theorem c7_witness :
    estimateBlastRadius (mkSkill "aws.ec2.list" RiskLevel.low false) [("x", PVal.vInt 3)] = 0 ∧
    estimateBlastRadius (mkSkill "aws.ec2.scale" RiskLevel.medium false)
      [("desired_capacity", PVal.vInt 7)] = 7 ∧
    estimateBlastRadius (mkSkill "aws.ec2.scale" RiskLevel.medium false) [] = 1 ∧
    estimateBlastRadius (mkSkill "terraform.apply" RiskLevel.high false) [] = 5 ∧
    estimateBlastRadius (mkSkill "aws.s3.sync" RiskLevel.medium false) [] = 10 ∧
    estimateBlastRadius (mkSkill "aws.ec2.start" RiskLevel.medium false) [] = 1 := by
  refine ⟨?_, ?_, ?_, ?_, ?_, ?_⟩
  · exact (c7_blast_radius_table (mkSkill "aws.ec2.list" RiskLevel.low false)
      [("x", PVal.vInt 3)]).1 rfl
  · exact ((c7_blast_radius_table (mkSkill "aws.ec2.scale" RiskLevel.medium false)
      [("desired_capacity", PVal.vInt 7)]).2.2.1 rfl).1 (by decide)
  · exact ((c7_blast_radius_table (mkSkill "aws.ec2.scale" RiskLevel.medium false)
      []).2.2.1 rfl).2 rfl
  · exact (c7_blast_radius_table (mkSkill "terraform.apply" RiskLevel.high false)
      []).2.2.2.1 rfl rfl
  · exact (c7_blast_radius_table (mkSkill "aws.s3.sync" RiskLevel.medium false)
      []).2.2.2.2.1 (by decide) (by decide) (by decide) (by decide) (by decide) (by decide)
  · exact (c7_blast_radius_table (mkSkill "aws.ec2.start" RiskLevel.medium false)
      []).2.2.2.2.2 (by decide) (by decide) (by decide) (by decide) (by decide) (by decide)

/-! ## Claims about policy applicability -/

/-- C8: the pattern aws.s3.star-form matches aws.s3.sync and not
aws.ec2.list; the matcher supports exactly the star, dot-star-suffix,
star-suffix and exact forms; and a policy's environments are matched
case-insensitively, an empty list constraining nothing. -/
theorem c8_policy_applicability :
    matchSkillPattern "aws.s3.sync" "aws.s3.*" = true ∧
    matchSkillPattern "aws.ec2.list" "aws.s3.*" = false ∧
    (∀ name : String, matchSkillPattern name "*" = true) ∧
    (∀ name pat : String, strEndsWith pat ".*" = true →
      matchSkillPattern name pat = strStartsWith name (strDropRight pat 2 ++ ".")) ∧
    (∀ name pat : String, pat ≠ "*" → strEndsWith pat ".*" = false →
      strEndsWith pat "*" = true →
      matchSkillPattern name pat = strStartsWith name (strDropRight pat 1)) ∧
    (∀ name pat : String, pat ≠ "*" → strEndsWith pat ".*" = false →
      strEndsWith pat "*" = false →
      matchSkillPattern name pat = (name == pat)) ∧
    (∀ (pol : Policy) (skill : Skill) (env : String),
      (pol.appliesTo.any fun pat => matchSkillPattern skill.name pat) = true →
      pol.environments = [] →
      policyApplies pol skill env = true) ∧
    (∀ (pol : Policy) (skill : Skill) (env : String),
      (pol.appliesTo.any fun pat => matchSkillPattern skill.name pat) = true →
      (pol.environments.any fun e => eqFold e env) = true →
      policyApplies pol skill env = true) := by
  refine ⟨by decide, by decide, ?_, ?_, ?_, ?_, ?_, ?_⟩
  · intro name
    simp [matchSkillPattern]
  · intro name pat h
    have hstar : (pat == "*") = false := by
      cases hb : pat == "*"
      · rfl
      · rw [show pat = "*" from by simpa using hb] at h
        exact absurd h (by decide)
    simp [matchSkillPattern, hstar, h]
  · intro name pat h1 h2 h3
    simp [matchSkillPattern, h1, h2, h3]
  · intro name pat h1 h2 h3
    simp [matchSkillPattern, h1, h2, h3]
  · intro pol skill env ha he
    simp [policyApplies, ha, he]
  · intro pol skill env ha he
    simp [policyApplies, ha, he]

/-- A sample guardrail policy scoped to aws.s3 skills in the PRODUCTION
environment (upper case, to exercise case-insensitive matching). -/
def s3ProdPolicy : Policy :=
  { name := "s3-prod-guard"
    description := "guards s3 mutations in production"
    enforcement := EnforcementLevel.warn
    severity := Severity.warning
    appliesTo := ["aws.s3.*"]
    environments := ["PRODUCTION"]
    check := fun _ _ _ => (false, "") }

/-- A sample guardrail policy scoped to aws.s3 skills in every
environment. -/
def s3AnyEnvPolicy : Policy :=
  { name := "s3-guard"
    description := "guards s3 mutations"
    enforcement := EnforcementLevel.warn
    severity := Severity.warning
    appliesTo := ["aws.s3.*"]
    environments := []
    check := fun _ _ _ => (false, "") }

/-- Witness for C8 at concrete names, patterns and policies. -/
theorem c8_witness :
    matchSkillPattern "aws.anything" "*" = true ∧
    matchSkillPattern "aws.s3.sync" "aws.s3.*" =
      strStartsWith "aws.s3.sync" (strDropRight "aws.s3.*" 2 ++ ".") ∧
    matchSkillPattern "aws.s3.sync" "aws.s3*" =
      strStartsWith "aws.s3.sync" (strDropRight "aws.s3*" 1) ∧
    matchSkillPattern "aws.s3.sync" "aws.s3.sync" = ("aws.s3.sync" == "aws.s3.sync") ∧
    policyApplies s3AnyEnvPolicy (mkSkill "aws.s3.sync" RiskLevel.medium false) "qa" = true ∧
    policyApplies s3ProdPolicy (mkSkill "aws.s3.sync" RiskLevel.medium false) "production"
      = true := by
  refine ⟨?_, ?_, ?_, ?_, ?_, ?_⟩
  · exact c8_policy_applicability.2.2.1 "aws.anything"
  · exact c8_policy_applicability.2.2.2.1 "aws.s3.sync" "aws.s3.*" (by decide)
  · exact c8_policy_applicability.2.2.2.2.1 "aws.s3.sync" "aws.s3*" (by decide) (by decide)
      (by decide)
  · exact c8_policy_applicability.2.2.2.2.2.1 "aws.s3.sync" "aws.s3.sync" (by decide)
      (by decide) (by decide)
  · exact c8_policy_applicability.2.2.2.2.2.2.1 s3AnyEnvPolicy
      (mkSkill "aws.s3.sync" RiskLevel.medium false) "qa" (by decide) rfl
  · exact c8_policy_applicability.2.2.2.2.2.2.2 s3ProdPolicy
      (mkSkill "aws.s3.sync" RiskLevel.medium false) "production" (by decide) (by decide)

end InfraCore
